import Mathlib

/-!
Verification of the RSSHub route handlers for ctee.com.tw and blocktempo.com
(`lib/routes/ctee/category.ts`, `lib/routes/blocktempo/year.ts` and the ctee
news-list variant) against their natural-language specification.

The TypeScript handlers are shallowly embedded: DOM queries are abstracted to
the values the cheerio selectors return (a candidate node carries the text and
attributes the sub-selectors read), JS promises to total functions or `Except`,
and external collaborators that are not part of the sampled sources (the date
normalizer, the cache, the automation backend) are modelled from the spec and
documented as such.
-/

namespace RSSHub

/-- JS `String.prototype.startsWith`, embedded at the character-list level:
`s.startsWith(p)` holds iff the characters of `p` are a prefix of those of `s`. -/
def startsWithStr (s p : String) : Bool :=
  p.data.isPrefixOf s.data

/-- JS `String.prototype.trim`, embedded at the character-list level: drop
whitespace from both ends. -/
def trimStr (s : String) : String :=
  ⟨((s.data.dropWhile Char.isWhitespace).reverse.dropWhile Char.isWhitespace).reverse⟩

/-- The ctee site base URL (`const baseUrl = 'https://ctee.com.tw'`). -/
def baseUrl : String := "https://ctee.com.tw"

/-- Modelled from the spec: the external date-string normalizer
(`@/utils/parse-date`, not among the sampled sources). The spec treats it as an
opaque collaborator mapping a locale-specific date string to a canonical
timestamp; it is represented by an injective tagging so no theorem below
depends on its concrete behaviour. -/
def parseDate (s : String) : String := "date:" ++ s

/-- One candidate node of the listing markup, abstracted to the values the
per-node sub-selectors of the handler read from it (`.news-title a` text,
its `href` attribute, `.news-summary` text, `time.news-time` text,
`.news-category a` text, `.picture--thumb img` `src`). A missing attribute is
`none`, exactly where cheerio's `.attr()` returns `undefined`. -/
structure CandidateNode where
  titleText : String
  href : Option String
  summaryText : String
  dateText : String
  categoryText : String
  imageSrc : Option String
deriving DecidableEq

/-- The record built for each candidate node (the object literal of the
handler's `.map` callback). `author` is absent at listing time and only ever
set by detail enrichment. -/
structure ListingRecord where
  title : String
  link : String
  description : String
  pubDate : Option String
  category : Option (List String)
  image : Option String
  author : Option String
deriving DecidableEq

/-- The handler's link expression
`link?.startsWith('http') ? link : ` + backtick-template `${baseUrl}${link}`:
when `href` is absent the optional-chain condition is `undefined` (falsy) and
the template literal stringifies `undefined`, producing `baseUrl ++ "undefined"`. -/
def linkOfHref : Option String → String
  | some l => if startsWithStr l "http" then l else baseUrl ++ l
  | none => baseUrl ++ "undefined"

/-- The body of the handler's `.map` callback, building one record from one
candidate node. -/
def toListingRecord (n : CandidateNode) : ListingRecord :=
  { title := trimStr n.titleText
    link := linkOfHref n.href
    description := trimStr n.summaryText
    pubDate :=
      if trimStr n.dateText = "" then none else some (parseDate (trimStr n.dateText))
    category :=
      if trimStr n.categoryText = "" then none else some [trimStr n.categoryText]
    image := n.imageSrc
    author := none }

/-- The listing-extraction stage of the handler:
`$('.newslist__card').toArray().slice(0, 20).map(...).filter((item) => item.title && item.link)`.
JS string truthiness makes the filter keep exactly the records whose `title`
and `link` are non-empty. -/
def extractListing (nodes : List CandidateNode) : List ListingRecord :=
  (((nodes.take 20).map toListingRecord).filter
    (fun r => (!(r.title == "")) && (!(r.link == ""))))

/-- A candidate node that is well-formed in the sense of the spec: non-empty
(trimmed) title text and a present, non-empty `href`. -/
def wellFormedNode (n : CandidateNode) : Bool :=
  (!(trimStr n.titleText == "")) &&
    (match n.href with
     | some u => !(u == "")
     | none => false)

lemma startsWithStr_baseUrl_append (x : String) :
    startsWithStr (baseUrl ++ x) "http" = true := by
  unfold startsWithStr baseUrl
  rw [ List.isPrefixOf_iff_prefix, String.data_append]
  exact List.IsPrefix.trans (by decide) ( List.prefix_append _ _)

lemma startsWithStr_linkOfHref (h : Option String) :
    startsWithStr (linkOfHref h) "http" = true := by
  cases h with
  | none => exact startsWithStr_baseUrl_append "undefined"
  | some l =>
    by_cases hl : startsWithStr l "http" = true
    · simp [linkOfHref, hl]
    · simp only [linkOfHref, Bool.not_eq_true] at hl
      simp [linkOfHref, hl, startsWithStr_baseUrl_append]

lemma baseUrl_append_ne_empty (x : String) : baseUrl ++ x ≠ "" := by
  intro h
  have hd : (baseUrl ++ x).data = ("" : String).data := congrArg String.data h
  rw [String.data_append] at hd
  have : baseUrl.data = [] := (List.append_eq_nil.mp hd).1
  simp [baseUrl] at this

lemma linkOfHref_ne_empty (h : Option String) : linkOfHref h ≠ "" := by
  cases h with
  | none => exact baseUrl_append_ne_empty "undefined"
  | some l =>
    by_cases hl : startsWithStr l "http" = true
    · simp only [linkOfHref, hl, if_true]
      intro he
      rw [he] at hl
      simp [startsWithStr] at hl
    · simp only [linkOfHref, hl, if_false]
      exact baseUrl_append_ne_empty l

/-- Concrete candidate node with non-empty title and an absolute link. -/
def nodeA : CandidateNode := ⟨"Alpha", some "http://x1", "s1", "", "", none⟩

/-- Concrete candidate node with a non-empty title but no `href` attribute. -/
def nodeB : CandidateNode := ⟨"Beta", none, "s2", "", "", none⟩

/-- Concrete candidate node with non-empty title and an absolute link. -/
def nodeC : CandidateNode := ⟨"Gamma", some "http://x2", "s3", "", "", none⟩

/-- C1 (amended): the listing-extraction stage never returns more than 20
records regardless of input size, every returned record has a non-empty title
(empty-title candidates are excluded), and for a markup all of whose K ≤ 20
candidate nodes are well-formed (non-empty trimmed title, present non-empty
href) it returns exactly K records in document order, one per candidate. -/
theorem extractListing_cap_order (nodes : List CandidateNode) :
    (extractListing nodes).length ≤ 20 ∧
    (∀ r ∈ extractListing nodes, r.title ≠ "") ∧
    (nodes.length ≤ 20 → (∀ n ∈ nodes, wellFormedNode n = true) →
      extractListing nodes = nodes.map toListingRecord) := by
  refine ⟨?_, ?_, ?_⟩
  · calc (extractListing nodes).length
        ≤ ((nodes.take 20).map toListingRecord).length := List.length_filter_le _ _
      _ = (nodes.take 20).length := List.length_map _ _
      _ ≤ 20 := by rw [List.length_take]; exact min_le_left _ _
  · intro r hr
    have h := (List.mem_filter.mp hr).2
    simp only [Bool.and_eq_true, Bool.not_eq_true', beq_eq_false_iff_ne] at h
    exact h.1
  · intro hlen hwf
    unfold extractListing
    rw [List.take_of_length_le hlen, List.filter_eq_self]
    intro r hr
    obtain ⟨n, hn, rfl⟩ := List.mem_map.mp hr
    have h := hwf n hn
    unfold wellFormedNode at h
    simp only [Bool.and_eq_true, Bool.not_eq_true', beq_eq_false_iff_ne] at h ⊢
    exact ⟨h.1, linkOfHref_ne_empty n.href⟩

/-- Witness for `extractListing_cap_order`: a concrete two-node well-formed
markup yields exactly its two records in document order. -/
theorem extractListing_cap_order_witness :
    extractListing [nodeA, nodeC] = [toListingRecord nodeA, toListingRecord nodeC] :=
  (extractListing_cap_order [nodeA, nodeC]).2.2 (by decide) (by decide)

/-- C1 counterexample: the markup `[nodeA, nodeB]` contains exactly one
well-formed candidate node (K = 1; `nodeB` has a title but no href), yet the
extraction stage returns two records — a candidate node missing its link is
not excluded, so the stage does not return "exactly K" records. -/
theorem extractListing_missing_link_included :
    ([nodeA, nodeB].filter wellFormedNode).length = 1 ∧
    (extractListing [nodeA, nodeB]).length = 2 ∧
    (extractListing [nodeA, nodeB]).map ListingRecord.link =
      ["http://x1", "https://ctee.com.twundefined"] := by
  decide

/-- C2: on a listing markup with three candidate nodes of which two have both
title and link and one is missing its link, the extraction stage returns all
three records — the link-less candidate is not dropped as the claim states;
it is kept with the bogus link `"https://ctee.com.twundefined"` produced by
stringifying the absent href into the base-URL template. -/
theorem extractListing_three_node_scenario :
    (extractListing [nodeA, nodeC, nodeB]).length = 3 ∧
    (extractListing [nodeA, nodeC, nodeB]).map ListingRecord.link =
      ["http://x1", "http://x2", "https://ctee.com.twundefined"] := by
  decide

/-- C10: every record produced by the listing stage carries a link beginning
with "http": an href already starting with "http" is kept verbatim, any other
value is prefixed with the site base URL (which itself begins with
"https://"); and a candidate whose href attribute is entirely absent still
yields the non-empty base-URL-prefixed link `baseUrl ++ "undefined"`. -/
theorem listing_links_begin_with_http (nodes : List CandidateNode) :
    (∀ r ∈ extractListing nodes, startsWithStr r.link "http" = true ∧ r.link ≠ "") ∧
    startsWithStr baseUrl "https://" = true ∧
    (∀ n : CandidateNode, n.href = none →
      (toListingRecord n).link = baseUrl ++ "undefined") := by
  refine ⟨?_, by decide, ?_⟩
  · intro r hr
    have hr' := (List.mem_filter.mp hr).1
    obtain ⟨n, _, rfl⟩ := List.mem_map.mp hr'
    exact ⟨startsWithStr_linkOfHref n.href, linkOfHref_ne_empty n.href⟩
  · intro n hn
    simp [toListingRecord, linkOfHref, hn]

/-- Witness for `listing_links_begin_with_http`: the record of the href-less
node `nodeB` inside a concrete extraction keeps a non-empty "http"-prefixed
link. -/
theorem listing_links_begin_with_http_witness :
    startsWithStr (toListingRecord nodeB).link "http" = true ∧
    (toListingRecord nodeB).link = baseUrl ++ "undefined" :=
  ⟨((listing_links_begin_with_http [nodeB]).1 (toListingRecord nodeB) (by decide)).1,
    (listing_links_begin_with_http [nodeB]).2.2 nodeB rfl⟩

/-- The result of `connect(realBrowserOption)` (puppeteer-real-browser),
abstracted to the one navigable surface (`conn.page`) it exposes, identified
by a number. -/
structure ConnectResult where
  page : Nat
deriving DecidableEq

/-- Handler configuration: the two env-derived settings the sampled routes
consult (`config.puppeteerRealBrowserService`, `config.chromiumExecutablePath`);
`none` models an unset (falsy) value. -/
structure Config where
  puppeteerRealBrowserService : Option String
  chromiumExecutablePath : Option String
deriving DecidableEq

/-- The failures the handler can surface: the missing-configuration error
thrown by the guard at the top of the handler, and the
`'Failed to fetch page…'` error thrown when the listing markup is empty. -/
inductive HandlerError
  | configurationError
  | fetchFailed
deriving DecidableEq

/-- Observable side effects of the handler's setup phase. -/
inductive Event
  | sessionOpened
  | timerArmed
deriving DecidableEq

/-- The setup phase of the handler (configuration guard, optional `connect`,
arming of the 120-time-unit auto-close timer): returns the connection passed
to every subsequent fetch (`none` selects the remote branch of
`getPageWithRealBrowser`) together with the trace of observable effects, or
fails with the configuration error before any effect. -/
def handlerSetup (cfg : Config) : Except HandlerError (Option ConnectResult) × List Event :=
  if cfg.puppeteerRealBrowserService.isNone && cfg.chromiumExecutablePath.isNone then
    (.error .configurationError, [])
  else if cfg.puppeteerRealBrowserService.isNone then
    (.ok (some ⟨0⟩), [.sessionOpened, .timerArmed])
  else
    (.ok none, [])

/-- C7: a configuration lacking both the remote service URL and the local
browser executable path fails with the configuration error before any
observable activity: no session is opened, no request issued, and the effect
trace is empty. -/
theorem config_guard_fails_first (cfg : Config)
    (hs : cfg.puppeteerRealBrowserService = none)
    (hc : cfg.chromiumExecutablePath = none) :
    handlerSetup cfg = (.error .configurationError, []) := by
  simp [handlerSetup, hs, hc]

/-- Witness for `config_guard_fails_first` at the fully-unset configuration. -/
theorem config_guard_fails_first_witness :
    handlerSetup ⟨none, none⟩ = (.error .configurationError, []) :=
  config_guard_fails_first ⟨none, none⟩ rfl rfl

/-- C5 counterexample: with both the remote service URL and the local browser
executable path configured, the handler uses the remote branch and never opens
a local session (`conn = none`, empty effect trace), although a local browser
executable path is set — contradicting "for every configuration in which a
local browser executable path is set, the pipeline opens and uses a local
Session". -/
theorem remote_preferred_over_configured_local :
    (Config.mk (some "http://svc") (some "/usr/bin/chromium")).chromiumExecutablePath.isSome
      = true ∧
    handlerSetup ⟨some "http://svc", some "/usr/bin/chromium"⟩ = (.ok none, []) :=
  ⟨rfl, rfl⟩

/-- C5 (amended): the backend choice depends only on the remote service URL —
a local session is opened exactly when no remote URL is configured and the
executable path is set (otherwise the configuration error), the remote branch
(`conn = none`) is used exactly when a remote URL is configured, and whenever
the remote branch is used no session-open effect ever occurs. -/
theorem backend_selection (cfg : Config) :
    ((∃ c, (handlerSetup cfg).1 = .ok (some c)) ↔
      (cfg.puppeteerRealBrowserService = none ∧ cfg.chromiumExecutablePath ≠ none)) ∧
    ((handlerSetup cfg).1 = .ok none ↔ cfg.puppeteerRealBrowserService ≠ none) ∧
    (cfg.puppeteerRealBrowserService ≠ none →
      Event.sessionOpened ∉ (handlerSetup cfg).2) := by
  obtain ⟨s, c⟩ := cfg
  cases s <;> cases c <;> simp [handlerSetup]

/-- Witness for `backend_selection`: with a remote URL configured, no
session-open effect occurs. -/
theorem backend_selection_witness :
    Event.sessionOpened ∉ (handlerSetup ⟨some "http://svc", some "/usr/bin/chromium"⟩).2 :=
  (backend_selection ⟨some "http://svc", some "/usr/bin/chromium"⟩).2.2 (by simp)

/-- The observable outcome of the remote branch's `fetch` + `res.json()`:
either a transport error / timeout (anything thrown, including the
`AbortSignal.timeout(60000)` abort) or a parsed JSON body whose optional
`data` field is an array of rendered snapshots. -/
inductive RemoteOutcome
  | transportError (e : String)
  | response (data : Option (List String))

/-- The remote branch of `getPageWithRealBrowser`: returns
`json.data?.at(0) || ''`; the surrounding catch maps anything thrown to the
empty-string sentinel, so the function never propagates a fault. -/
def remoteRender : RemoteOutcome → String
  | .transportError _ => ""
  | .response none => ""
  | .response (some l) =>
    match l.head? with
    | none => ""
    | some h => if h = "" then "" else h

/-- The listing-fetch guard of the handler:
`if (!html) { …close conn…; throw new Error('Failed to fetch page…'); }`. -/
def listingGate (html : String) : Except HandlerError String :=
  if html = "" then .error .fetchFailed else .ok html

/-- C6: every transport error, timeout, missing-`data` or empty-`data`
response of the remote render path yields the empty-string sentinel rather
than a thrown fault, and whenever the sentinel is produced on the listing
fetch the handler reaches the failed outcome with the fetch error; in
particular the `{data: []}` response does so. -/
theorem remote_failures_yield_sentinel :
    (∀ e, remoteRender (.transportError e) = "") ∧
    remoteRender (.response none) = "" ∧
    remoteRender (.response (some [])) = "" ∧
    (∀ o, remoteRender o = "" → listingGate (remoteRender o) = .error .fetchFailed) ∧
    listingGate (remoteRender (.response (some []))) = .error .fetchFailed := by
  refine ⟨fun e => rfl, rfl, rfl, ?_, rfl⟩
  intro o h
  rw [h]
  exact rfl

/-- Witness for `remote_failures_yield_sentinel` at the `{data: []}`
response. -/
theorem remote_failures_yield_sentinel_witness :
    listingGate (remoteRender (.response (some []))) = .error .fetchFailed :=
  remote_failures_yield_sentinel.2.2.2.1 (.response (some [])) rfl

/-- Session lifecycle states of the one browser connection. -/
inductive SessionState
  | opened
  | closed
deriving DecidableEq

/-- Modelled from the spec: `close(session)` of the SessionManager contract.
The underlying `conn.browser.close()` belongs to the external automation
backend (puppeteer-real-browser, not among the sampled sources); per the spec
it is idempotent, safe to call multiple times, releases all underlying
resources and leaves the session closed. -/
def closeSession : SessionState → SessionState
  | _ => .closed

/-- The callback of the auto-close timer armed on open
(`setTimeout(async () => { if (conn) await conn.browser.close(); }, 120000)`):
fires 120 time units after open and closes the browser when the connection
variable is still set. -/
def timerCallback (conn : Option ConnectResult) (st : SessionState) : SessionState :=
  match conn with
  | some _ => closeSession st
  | none => st

/-- The session state at the end of a local-mode run: the session starts
opened, the handler may or may not reach its explicit `conn.browser.close()`,
and the armed timer fires at 120 time units. -/
def sessionAfterRun (conn : Option ConnectResult) (explicitClose : Bool) : SessionState :=
  timerCallback conn (if explicitClose then closeSession .opened else .opened)

/-- C8: on every successful open of a local session the auto-close timer is
armed; `closeSession` is idempotent (multiple calls are safe); the armed timer
force-closes the session at 120 time units even when the caller never closed
it; and after an explicit close the timer firing is a no-op — the state is
unchanged and remains closed. -/
theorem session_timer_and_idempotent_close :
    (∀ cfg c evs, handlerSetup cfg = (.ok (some c), evs) → Event.timerArmed ∈ evs) ∧
    (∀ st, closeSession (closeSession st) = closeSession st) ∧
    (∀ c, sessionAfterRun (some c) false = .closed) ∧
    (∀ c, sessionAfterRun (some c) true = .closed ∧
      timerCallback (some c) (closeSession .opened) = closeSession .opened) := by
  refine ⟨?_, fun _ => rfl, fun _ => rfl, fun _ => ⟨rfl, rfl⟩⟩
  intro cfg c evs h
  have h2 : (handlerSetup cfg).2 = evs := congrArg Prod.snd h
  have h1 : (handlerSetup cfg).1 = Except.ok (some c) := congrArg Prod.fst h
  obtain ⟨s, ch⟩ := cfg
  cases s with
  | none =>
    cases ch with
    | none => simp [handlerSetup] at h1
    | some p =>
      rw [← h2]
      simp [handlerSetup]
  | some u => simp [handlerSetup] at h1

/-- Witness for `session_timer_and_idempotent_close`: local-mode setup arms
the timer, and the timer alone closes a forgotten session. -/
theorem session_timer_and_idempotent_close_witness :
    Event.timerArmed ∈ (handlerSetup ⟨none, some "/usr/bin/chromium"⟩).2 ∧
    sessionAfterRun (some ⟨0⟩) false = .closed :=
  ⟨session_timer_and_idempotent_close.1 ⟨none, some "/usr/bin/chromium"⟩ ⟨0⟩
      (handlerSetup ⟨none, some "/usr/bin/chromium"⟩).2 rfl,
    session_timer_and_idempotent_close.2.2.1 ⟨0⟩⟩

/-- The outcome of one
`page.evaluate((sel) => (document.querySelector(sel) ? true : null), selector)`
attempt: the selector resolved, it did not resolve, or the evaluation itself
threw (e.g. the page navigated away mid-poll). -/
inductive EvalResult
  | found
  | notFound
  | errored
deriving DecidableEq

/-- The value the loop variable `verify` receives from one attempt: `true`
when the selector resolved and `null` (here `false`) otherwise — the trailing
`.catch(() => null)` maps an errored attempt to `null` as well. -/
def evalStep : EvalResult → Bool
  | .found => true
  | .notFound => false
  | .errored => false

/-- The challenge-wait loop
`while (!verify && Date.now() - startDate < 60000) { verify = await page.evaluate(…).catch(() => null); await new Promise((r) => setTimeout(r, 1000)); }`
with time counted in seconds: `attempts t` is the outcome of the evaluation
performed at elapsed time `t`, each iteration sleeps one time unit, and
`remaining` counts the iterations the budget still allows. -/
def pollLoop (attempts : Nat → EvalResult) : Nat → Nat → Bool → Bool
  | _, 0, verify => verify
  | t, remaining + 1, verify =>
    if verify then verify
    else pollLoop attempts (t + 1) remaining (evalStep (attempts t))

/-- The challenge gate: run the poll loop from elapsed time 0 with a
60-time-unit budget and `verify` initially `null`; the result is whether the
readiness selector ever resolved. -/
def challengeGate (attempts : Nat → EvalResult) : Bool :=
  pollLoop attempts 0 60 false

/-- The local branch of `getPageWithRealBrowser`: `page.goto` (whose failure
is caught by the enclosing try, yielding the empty-string sentinel), then the
challenge-wait loop, then `return await page.content()` — the current markup
is returned whatever the gate decided. -/
def getPageLocal (goto : Except String Unit) (attempts : Nat → EvalResult)
    (content : String) : String :=
  match goto with
  | .error _ => ""
  | .ok _ =>
    let _ready := challengeGate attempts
    content

lemma pollLoop_true (attempts : Nat → EvalResult) (t r : Nat) :
    pollLoop attempts t r true = true := by
  cases r <;> rfl

lemma pollLoop_timeout (attempts : Nat → EvalResult) :
    ∀ r t, (∀ k, k < r → attempts (t + k) ≠ .found) →
      pollLoop attempts t r false = false := by
  intro r
  induction r with
  | zero => intro t _; rfl
  | succ m ih =>
    intro t h
    show pollLoop attempts (t + 1) m (evalStep (attempts t)) = false
    have h0 : attempts t ≠ .found := by
      have := h 0 (Nat.succ_pos m)
      simpa using this
    have hstep : evalStep (attempts t) = false := by
      cases ha : attempts t with
      | found => exact absurd ha h0
      | notFound => rfl
      | errored => rfl
    rw [hstep]
    apply ih
    intro k hk
    have hsh := h (k + 1) (Nat.succ_lt_succ hk)
    have he : t + 1 + k = t + (k + 1) := by omega
    rw [he]
    exact hsh

lemma pollLoop_found (attempts : Nat → EvalResult) :
    ∀ r t k, k < r → attempts (t + k) = .found →
      (∀ j, j < k → attempts (t + j) ≠ .found) →
      pollLoop attempts t r false = true := by
  intro r
  induction r with
  | zero => intro t k hk; omega
  | succ m ih =>
    intro t k hk hfound hbefore
    show pollLoop attempts (t + 1) m (evalStep (attempts t)) = true
    cases k with
    | zero =>
      have h0 : attempts t = .found := by simpa using hfound
      rw [h0]
      exact pollLoop_true attempts (t + 1) m
    | succ j =>
      have h0 : attempts t ≠ .found := by
        have := hbefore 0 (Nat.succ_pos j)
        simpa using this
      have hstep : evalStep (attempts t) = false := by
        cases ha : attempts t with
        | found => exact absurd ha h0
        | notFound => rfl
        | errored => rfl
      rw [hstep]
      apply ih (t + 1) j (Nat.lt_of_succ_lt_succ hk)
      · have he : t + 1 + j = t + (j + 1) := by omega
        rw [he]
        exact hfound
      · intro i hi
        have hsh := hbefore (i + 1) (Nat.succ_lt_succ hi)
        have he : t + 1 + i = t + (i + 1) := by omega
        rw [he]
        exact hsh

lemma pollLoop_deErr (attempts : Nat → EvalResult) :
    ∀ r t v, pollLoop attempts t r v =
      pollLoop (fun n => if attempts n = .errored then .notFound else attempts n) t r v := by
  intro r
  induction r with
  | zero => intro t v; rfl
  | succ m ih =>
    intro t v
    cases v with
    | true => rfl
    | false =>
      show pollLoop attempts (t + 1) m (evalStep (attempts t)) = _
      have hstep : evalStep (attempts t) =
          evalStep (if attempts t = .errored then .notFound else attempts t) := by
        cases attempts t <;> rfl
      rw [hstep]
      exact ih (t + 1) _

/-- C9: the challenge-wait loop polls the readiness selector once per time
unit within the 60-unit budget: it reports ready as soon as the first
resolving attempt occurs within the budget, an attempt that itself errors is
treated exactly like a non-match and polling continues, on a full timeout it
reports non-ready without raising an error, and the caller then proceeds with
whatever markup is currently present. -/
theorem challenge_gate_poll (attempts : Nat → EvalResult) (content : String) :
    (∀ k, k < 60 → attempts k = .found → (∀ j, j < k → attempts j ≠ .found) →
      challengeGate attempts = true) ∧
    (challengeGate attempts =
      challengeGate (fun n => if attempts n = .errored then .notFound else attempts n)) ∧
    ((∀ k, k < 60 → attempts k ≠ .found) → challengeGate attempts = false) ∧
    ((∀ k, k < 60 → attempts k ≠ .found) →
      getPageLocal (.ok ()) attempts content = content) := by
  refine ⟨?_, ?_, ?_, fun _ => rfl⟩
  · intro k hk hfound hbefore
    apply pollLoop_found attempts 60 0 k hk
    · simpa using hfound
    · intro j hj
      simpa using hbefore j hj
  · exact pollLoop_deErr attempts 60 0 false
  · intro h
    apply pollLoop_timeout attempts 60 0
    intro k hk
    simpa using h k hk

/-- Witness for `challenge_gate_poll`: a concrete attempt sequence resolving
at time 2 yields ready; one that never resolves (every attempt errors) times
out to non-ready. -/
theorem challenge_gate_poll_witness :
    challengeGate (fun n => if n = 2 then .found else .errored) = true ∧
    challengeGate (fun _ => .errored) = false :=
  ⟨(challenge_gate_poll (fun n => if n = 2 then .found else .errored) "").1 2
      (by decide) (by decide) (by decide),
    (challenge_gate_poll (fun _ => .errored) "").2.2.1 (fun k _ => by decide)⟩

/-- The selector reads of a fetched detail page, abstracted like the listing
candidate: the inner markup of the first content container (`.html()` is
`null` when the selector matches nothing), the `datetime` attribute and the
text of the first date node, and the text of the first author node. -/
structure DetailDoc where
  contentHtml : Option String
  datetimeAttr : Option String
  dateElText : String
  authorText : String
deriving DecidableEq

/-- What the per-record detail fetch produced: rendered markup, the
empty-string sentinel (failed or timed-out fetch — `getPageWithRealBrowser`
catches everything and returns `''`), or an exception thrown inside the try
block of the compute function. -/
inductive DetailOutcome
  | markup (d : DetailDoc)
  | empty
  | thrown (e : String)

/-- The detail enrichment of the handler: set `description` to the content
container's inner markup when present and non-empty, override `pubDate` from
`dateEl.attr('datetime') || dateEl.text().trim()` when that is non-empty, and
set `author` when its text is non-empty. -/
def enrich (item : ListingRecord) (d : DetailDoc) : ListingRecord :=
  let item1 :=
    match d.contentHtml with
    | some c => if c = "" then item else { item with description := c }
    | none => item
  let dt :=
    match d.datetimeAttr with
    | some a => if a = "" then trimStr d.dateElText else a
    | none => trimStr d.dateElText
  let item2 := if dt = "" then item1 else { item1 with pubDate := some (parseDate dt) }
  let au := trimStr d.authorText
  if au = "" then item2 else { item2 with author := some au }

/-- The body of the `try` block of the per-record compute function: an
exception propagates to the catch, an empty fetch leaves the record as-is
(`if (detailHtml)` fails), markup enriches it. -/
def detailTryBody : DetailOutcome → ListingRecord → Except String ListingRecord
  | .thrown e, _ => .error e
  | .empty, item => .ok item
  | .markup d, item => .ok (enrich item d)

/-- The per-record compute function handed to `cache.tryGet`: the catch
swallows any exception (`catch { /* 忽略錯誤 */ }` then `return item`), so the
computation always resolves with a record. -/
def detailCompute (o : DetailOutcome) (item : ListingRecord) : ListingRecord :=
  match detailTryBody o item with
  | .error _ => item
  | .ok v => v

/-- Key lookup in the modelled cache store. -/
def cacheLookup : List (String × ListingRecord) → String → Option ListingRecord
  | [], _ => none
  | (k, v) :: rest, key => if key == k then some v else cacheLookup rest key

/-- Modelled from the spec: `cache.tryGet(key, compute)` of the external cache
abstraction (`@/utils/cache`, not among the sampled sources) — get-or-compute
with the documented single-flight contract: a present entry is returned and
the computation does not run; a missing entry runs `compute` once and retains
its result under the key. The boolean reports whether `compute` ran. -/
def tryGet (cache : List (String × ListingRecord)) (key : String)
    (compute : Unit → ListingRecord) :
    ListingRecord × List (String × ListingRecord) × Bool :=
  match cacheLookup cache key with
  | some v => (v, cache, false)
  | none => (compute (), (key, compute ()) :: cache, true)

/-- The detail fan-out stage
(`await Promise.all(list.map((item) => cache.tryGet(item.link, async () => …)))`):
every record is completed through the cache keyed by its link, with its own
detail outcome, threading the shared cache store. -/
def fanout (outcomes : String → DetailOutcome) :
    List (String × ListingRecord) → List ListingRecord →
    List ListingRecord × List (String × ListingRecord)
  | cache, [] => ([], cache)
  | cache, r :: rs =>
    let step := tryGet cache r.link (fun _ => detailCompute (outcomes r.link) r)
    let rest := fanout outcomes step.2.1 rs
    (step.1 :: rest.1, rest.2)

/-- A failing per-record detail fetch: the empty-string sentinel (timeout or
failed fetch) or an exception inside the try block. -/
def failingOutcome : DetailOutcome → Prop
  | .markup _ => False
  | .empty => True
  | .thrown _ => True

lemma detailCompute_failing (item : ListingRecord) (o : DetailOutcome)
    (h : failingOutcome o) : detailCompute o item = item := by
  cases o with
  | markup d => exact absurd h id
  | empty => rfl
  | thrown e => rfl

lemma fanout_map (outcomes : String → DetailOutcome) :
    ∀ (list : List ListingRecord) (cache : List (String × ListingRecord)),
      (∀ r ∈ list, cacheLookup cache r.link = none) →
      list.Pairwise (fun a b => a.link ≠ b.link) →
      (fanout outcomes cache list).1 =
        list.map (fun r => detailCompute (outcomes r.link) r) := by
  intro list
  induction list with
  | nil => intro cache _ _; rfl
  | cons r rs ih =>
    intro cache hmiss hpw
    have hr : cacheLookup cache r.link = none := hmiss r (List.mem_cons_self r rs)
    simp only [fanout, tryGet, hr, List.map_cons]
    congr 1
    apply ih
    · intro r' hr'
      have hne : r'.link ≠ r.link :=
        fun he => (List.pairwise_cons.mp hpw).1 r' hr' he.symm
      have hb : (r'.link == r.link) = false := beq_eq_false_iff_ne.mpr hne
      simp only [cacheLookup, hb, Bool.false_eq_true, if_false]
      exact hmiss r' (List.mem_cons_of_mem r hr')
    · exact (List.pairwise_cons.mp hpw).2

/-- C3: a failing, timed-out or empty detail fetch for a record never escapes
the fan-out and never affects other records: the per-record compute function
still returns the record, with its listing-derived title, description and
pubDate unchanged; on a fresh cache the record is then cached as a success
holding only listing-derived fields, and a subsequent identical request is
answered from the cache without running any compute function again; and with
pairwise distinct links the fan-out output of every record depends only on
that record and its own outcome. -/
theorem detail_fanout_fault_tolerant :
    (∀ (item : ListingRecord) (o : DetailOutcome), failingOutcome o →
      detailCompute o item = item ∧
      tryGet [] item.link (fun _ => detailCompute o item) =
        (item, [(item.link, item)], true) ∧
      (∀ f : Unit → ListingRecord,
        tryGet [(item.link, item)] item.link f = (item, [(item.link, item)], false))) ∧
    (∀ (outcomes : String → DetailOutcome) (list : List ListingRecord),
      list.Pairwise (fun a b => a.link ≠ b.link) →
      (fanout outcomes [] list).1 =
        list.map (fun r => detailCompute (outcomes r.link) r)) := by
  constructor
  · intro item o h
    have hc := detailCompute_failing item o h
    refine ⟨hc, ?_, ?_⟩
    · simp only [tryGet, cacheLookup, hc]
    · intro f
      simp only [tryGet, cacheLookup, beq_self_eq_true, if_pos]
  · intro outcomes list hpw
    exact fanout_map outcomes list [] (fun r _ => rfl) hpw

/-- Witness for `detail_fanout_fault_tolerant`: a timed-out (empty) detail
fetch of a concrete record leaves it unchanged, caches it as a success, and a
second identical request does not rerun any computation. -/
theorem detail_fanout_fault_tolerant_witness :
    detailCompute .empty (toListingRecord nodeA) = toListingRecord nodeA ∧
    tryGet [((toListingRecord nodeA).link, toListingRecord nodeA)]
        (toListingRecord nodeA).link (fun _ => toListingRecord nodeA) =
      (toListingRecord nodeA, [((toListingRecord nodeA).link, toListingRecord nodeA)],
        false) :=
  ⟨(detail_fanout_fault_tolerant.1 (toListingRecord nodeA) .empty trivial).1,
    (detail_fanout_fault_tolerant.1 (toListingRecord nodeA) .empty trivial).2.2
      (fun _ => toListingRecord nodeA)⟩

/-- The detail navigations started by the fan-out: `Promise.all(list.map(…))`
creates every per-record promise synchronously, and in local mode each one's
`getPageWithRealBrowser(item.link, …, conn)` call navigates `conn.page` — so
all of these navigations are launched against the same single surface before
any of them completes, with no queue or rejection anywhere in the handler. -/
def detailNavLaunches (conn : Option ConnectResult) (list : List ListingRecord) :
    List (Option Nat) :=
  list.map (fun _ => conn.map ConnectResult.page)

/-- C4: evaluation of the code at the failing input — in local mode, with two
uncached records, the fan-out simultaneously launches two navigations that
both drive the same browser page (`conn.page`), so concurrent calls against
the same session are neither rejected nor queued. -/
theorem concurrent_navs_share_one_page :
    detailNavLaunches (some ⟨0⟩) [toListingRecord nodeA, toListingRecord nodeC] =
      [some 0, some 0] ∧
    (detailNavLaunches (some ⟨0⟩)
        [toListingRecord nodeA, toListingRecord nodeC]).count (some 0) = 2 := by
  constructor <;> rfl

end RSSHub
